import Mathlib

/-!
Shallow embedding of the Xdiff repository (an HTTP request templating /
response diffing tool) for checking its natural-language specification.

The embedding translates, from the Rust sources:
  * the JSON value model used by the tool (`serde_json::Value` with the
    default `BTreeMap` object representation: keys kept sorted, duplicate
    keys last-write-wins).  Number literals are modelled as integers;
    non-integer numerals are outside the model.
  * `RequestProfile` (src/src/config/mod.rs and src/src/req.rs), its
    `generate`, `get_url`, `validate` and `FromStr` implementations;
  * response normalization (`get_heardes_text`, `get_body_text`,
    `filter_json` in src/src/config/mod.rs);
  * the override-directive parser (`parse_key_val` in src/src/cli.rs);
  * the profile stores (`DiffConfig` / `RequestConfig` `get_profile`);
  * the line diff pipeline (`diff_text` in src/src/utils.rs, which uses
    the `similar` crate: a minimal line edit script, context grouping
    with window 3, and plain-text rendering; ANSI styling is presentation
    only and rendered here with colors disabled).
-/

/-- The `serde_json::Value`.  Objects are association lists kept sorted by key
(`BTreeMap` semantics of the default serde_json feature set).  Integer
numerals are modelled exactly in `num`; a numeral with a fraction or
exponent part parses into `fnum`, which keeps the lexeme — serde_json
stores such numbers as an `f64` and re-serializes them through ryu,
floating-point behavior that is outside this model. -/
inductive Json where
  | null : Json
  | bool : Bool → Json
  | num : Int → Json
  | fnum : String → Json
  | str : String → Json
  | arr : List Json → Json
  | obj : List (String × Json) → Json
  deriving Repr, BEq

/-- The `Value::is_object`. -/
def Json.isObject : Json → Bool
  | .obj _ => true
  | _ => false

/-- Code-point lexicographic order on strings; for UTF-8 encoded strings
this coincides with the byte order `BTreeMap<String, _>` sorts by. -/
def charListLt : List Char → List Char → Bool
  | [], [] => false
  | [], _ :: _ => true
  | _ :: _, [] => false
  | a :: as, b :: bs => if a < b then true else if b < a then false else charListLt as bs

def strLt (a b : String) : Bool :=
  charListLt a.data b.data

/-- Insert into a `BTreeMap<String, Value>`: keys stay sorted (byte
lexicographic order), an existing key's value is replaced. -/
def insertSorted (k : String) (v : Json) : List (String × Json) → List (String × Json)
  | [] => [(k, v)]
  | (k', v') :: rest =>
      if k = k' then (k, v) :: rest
      else if strLt k k' then (k, v) :: (k', v') :: rest
      else (k', v') :: insertSorted k v rest

/-- The `BTreeMap::remove` for one key. -/
def removeKey (k : String) : List (String × Json) → List (String × Json)
  | [] => []
  | (k', v') :: rest => if k' = k then rest else (k', v') :: removeKey k rest

/-- The `map.remove(k)` applied for every key of a skip list
(the loop body of `filter_json`). -/
def removeKeys (skip : List String) (m : List (String × Json)) : List (String × Json) :=
  skip.foldl (fun acc k => removeKey k acc) m

/-- JSON whitespace skipping (serde_json accepts space, tab, newline, CR). -/
def skipWs : List Char → List Char
  | [] => []
  | c :: rest =>
      if c = ' ' ∨ c = '\t' ∨ c = '\n' ∨ c = '\r' then skipWs rest else c :: rest

/-- One hex digit. -/
def hexDigit (c : Char) : Option Nat :=
  if c.isDigit then some (c.toNat - 48)
  else if 'a' ≤ c ∧ c ≤ 'f' then some (c.toNat - 87)
  else if 'A' ≤ c ∧ c ≤ 'F' then some (c.toNat - 55)
  else none

/-- Body of a JSON string literal after the opening quote, with the escape
sequences serde_json accepts (each `\uXXXX` becomes one code unit;
surrogate-pair recombination is outside the model).  Returns the decoded
string and the input past the closing quote. -/
def parseStringBody (acc : List Char) : List Char → Option (String × List Char)
  | [] => none
  | '"' :: rest => some (String.mk acc.reverse, rest)
  | '\\' :: esc =>
      match esc with
      | '"' :: r => parseStringBody ('"' :: acc) r
      | '\\' :: r => parseStringBody ('\\' :: acc) r
      | '/' :: r => parseStringBody ('/' :: acc) r
      | 'n' :: r => parseStringBody ('\n' :: acc) r
      | 't' :: r => parseStringBody ('\t' :: acc) r
      | 'r' :: r => parseStringBody ('\r' :: acc) r
      | 'b' :: r => parseStringBody (Char.ofNat 8 :: acc) r
      | 'f' :: r => parseStringBody (Char.ofNat 12 :: acc) r
      | 'u' :: h1 :: h2 :: h3 :: h4 :: r =>
          match hexDigit h1, hexDigit h2, hexDigit h3, hexDigit h4 with
          | some a, some b, some c, some d =>
              parseStringBody (Char.ofNat (a * 4096 + b * 256 + c * 16 + d) :: acc) r
          | _, _, _, _ => none
      | _ => none
  | c :: rest => if c.toNat < 32 then none else parseStringBody (c :: acc) rest

/-- Split off a leading run of decimal digits. -/
def takeDigits (cs : List Char) : List Char × List Char :=
  (cs.takeWhile Char.isDigit, cs.dropWhile Char.isDigit)

/-- Integer part of a JSON numeral: a single `0`, or a nonzero digit
followed by digits (leading zeros rejected, as serde_json does). -/
def parseIntPart : List Char → Option (List Char × List Char)
  | [] => none
  | '0' :: rest =>
      match rest with
      | [] => some (['0'], [])
      | d :: _ => if d.isDigit then none else some (['0'], rest)
  | c :: rest =>
      if c.isDigit then
        match takeDigits rest with
        | (ds, rest') => some (c :: ds, rest')
      else none

/-- Optional fraction part `.digits` of a JSON numeral (a dot with no
digit is a parse error). -/
def parseFrac : List Char → Option (List Char × List Char)
  | '.' :: rest =>
      match takeDigits rest with
      | ([], _) => none
      | (ds, rest') => some ('.' :: ds, rest')
  | cs => some ([], cs)

/-- Optional exponent part `(e|E)[+|-]digits` of a JSON numeral. -/
def parseExp : List Char → Option (List Char × List Char)
  | [] => some ([], [])
  | c :: rest =>
      if c = 'e' ∨ c = 'E' then
        match (match rest with
               | '+' :: r => (['+'], r)
               | '-' :: r => (['-'], r)
               | r => (([] : List Char), r)) with
        | (sgn, rest₁) =>
            match takeDigits rest₁ with
            | ([], _) => none
            | (ds, rest₂) => some (c :: (sgn ++ ds), rest₂)
      else some ([], c :: rest)

def digitsToNat (ds : List Char) : Nat :=
  ds.foldl (fun a c => a * 10 + (c.toNat - 48)) 0

/-- A JSON number literal, serde_json grammar: optional minus, integer
part, optional fraction and exponent.  A plain integer literal becomes
`.num`; a literal with a fraction or exponent part becomes `.fnum`
holding the lexeme (its f64 value and ryu re-serialization are outside
the model). -/
def parseNumber (cs : List Char) : Option (Json × List Char) :=
  match (match cs with
         | '-' :: r => (true, r)
         | r => (false, r)) with
  | (neg, cs₁) =>
      match parseIntPart cs₁ with
      | none => none
      | some (ids, rest₁) =>
          match parseFrac rest₁ with
          | none => none
          | some (fds, rest₂) =>
              match parseExp rest₂ with
              | none => none
              | some (eds, rest₃) =>
                  if fds = [] ∧ eds = [] then
                    let n : Int := digitsToNat ids
                    some (.num (if neg then -n else n), rest₃)
                  else
                    some (.fnum (String.mk
                      ((if neg then ['-'] else []) ++ ids ++ fds ++ eds)), rest₃)

mutual

/-- Recursive-descent JSON value parser (serde_json grammar), fuelled
by input length. -/
def parseVal : Nat → List Char → Option (Json × List Char)
  | 0, _ => none
  | fuel + 1, cs =>
      match skipWs cs with
      | 'n' :: 'u' :: 'l' :: 'l' :: rest => some (.null, rest)
      | 't' :: 'r' :: 'u' :: 'e' :: rest => some (.bool true, rest)
      | 'f' :: 'a' :: 'l' :: 's' :: 'e' :: rest => some (.bool false, rest)
      | '"' :: rest =>
          match parseStringBody [] rest with
          | some (s, rest') => some (.str s, rest')
          | none => none
      | '[' :: rest =>
          (match skipWs rest with
           | ']' :: rest' => some (.arr [], rest')
           | _ => parseArrItems fuel rest [])
      | '{' :: rest =>
          (match skipWs rest with
           | '}' :: rest' => some (.obj [], rest')
           | _ => parseObjItems fuel rest [])
      | '-' :: rest => parseNumber ('-' :: rest)
      | c :: rest => if c.isDigit then parseNumber (c :: rest) else none
      | [] => none

/-- Array elements after `[` (first element onward). -/
def parseArrItems : Nat → List Char → List Json → Option (Json × List Char)
  | 0, _, _ => none
  | fuel + 1, cs, acc =>
      match parseVal fuel cs with
      | none => none
      | some (v, rest) =>
          match skipWs rest with
          | ',' :: rest' => parseArrItems fuel rest' (v :: acc)
          | ']' :: rest' => some (.arr (v :: acc).reverse, rest')
          | _ => none

/-- Object members after `{` (first member onward); members land in a
sorted map, duplicate keys last-write-wins (`BTreeMap` semantics). -/
def parseObjItems : Nat → List Char → List (String × Json) → Option (Json × List Char)
  | 0, _, _ => none
  | fuel + 1, cs, acc =>
      match skipWs cs with
      | '"' :: rest =>
          match parseStringBody [] rest with
          | none => none
          | some (k, rest₁) =>
              match skipWs rest₁ with
              | ':' :: rest₂ =>
                  match parseVal fuel rest₂ with
                  | none => none
                  | some (v, rest₃) =>
                      match skipWs rest₃ with
                      | ',' :: rest₄ => parseObjItems fuel rest₄ (insertSorted k v acc)
                      | '}' :: rest₄ => some (.obj (insertSorted k v acc), rest₄)
                      | _ => none
              | _ => none
      | _ => none

end

/-- The `serde_json::from_str` / `str::parse::<serde_json::Value>`: parse one
JSON value, requiring the whole input to be consumed (trailing whitespace
allowed). -/
def parseJson (s : String) : Option Json :=
  match parseVal (s.length + 1) s.data with
  | some (j, rest) => if skipWs rest = [] then some j else none
  | none => none

/-- serde_json string escaping: `"` and `\` escaped, the named control
escapes, other control characters as `\u00XX`. -/
def escapeJsonChar (c : Char) : String :=
  if c = '"' then "\\\""
  else if c = '\\' then "\\\\"
  else if c = '\n' then "\\n"
  else if c = '\r' then "\\r"
  else if c = '\t' then "\\t"
  else if c.toNat = 8 then "\\b"
  else if c.toNat = 12 then "\\f"
  else if c.toNat < 32 then
    "\\u00" ++ String.mk [(Nat.digitChar (c.toNat / 16)), (Nat.digitChar (c.toNat % 16))]
  else String.singleton c

/-- A JSON string literal. -/
def quoteJson (s : String) : String :=
  "\"" ++ String.join (s.data.map escapeJsonChar) ++ "\""

mutual

/-- The `serde_json::to_string`: compact encoding, object keys in map order
(sorted, by the `BTreeMap` representation). -/
def jsonEncode : Json → String
  | .null => "null"
  | .bool true => "true"
  | .bool false => "false"
  | .num n => toString n
  | .fnum s => s
  | .str s => quoteJson s
  | .arr xs => "[" ++ String.intercalate "," (encodeItems xs) ++ "]"
  | .obj kvs => "\x7b" ++ String.intercalate "," (encodeMembers kvs) ++ "\x7d"

def encodeItems : List Json → List String
  | [] => []
  | j :: rest => jsonEncode j :: encodeItems rest

def encodeMembers : List (String × Json) → List String
  | [] => []
  | (k, v) :: rest => (quoteJson k ++ ":" ++ jsonEncode v) :: encodeMembers rest

end

/-- Two-space indentation prefix at a nesting level. -/
def indentStr (n : Nat) : String :=
  String.mk (List.replicate (2 * n) ' ')

mutual

/-- The `serde_json::to_string_pretty` at nesting level `ind` (two-space
indent, `", "`-free member lines, empty containers stay on one line). -/
def prettyAt (ind : Nat) : Json → String
  | .arr [] => "[]"
  | .obj [] => "\x7b\x7d"
  | .arr (x :: xs) =>
      "[\n" ++ String.intercalate ",\n" (prettyItems (ind + 1) (x :: xs)) ++
      "\n" ++ indentStr ind ++ "]"
  | .obj (kv :: kvs) =>
      "\x7b\n" ++ String.intercalate ",\n" (prettyMembers (ind + 1) (kv :: kvs)) ++
      "\n" ++ indentStr ind ++ "\x7d"
  | .null => "null"
  | .bool true => "true"
  | .bool false => "false"
  | .num n => toString n
  | .fnum s => s
  | .str s => quoteJson s

def prettyItems (ind : Nat) : List Json → List String
  | [] => []
  | j :: rest => (indentStr ind ++ prettyAt ind j) :: prettyItems ind rest

def prettyMembers (ind : Nat) : List (String × Json) → List String
  | [] => []
  | (k, v) :: rest =>
      (indentStr ind ++ quoteJson k ++ ": " ++ prettyAt ind v) :: prettyMembers ind rest

end

/-- The `serde_json::to_string_pretty`. -/
def toStringPretty (j : Json) : String :=
  prettyAt 0 j

/-- UTF-8 bytes of a code point. -/
def utf8Bytes (n : Nat) : List Nat :=
  if n < 128 then [n]
  else if n < 2048 then [192 + n / 64, 128 + n % 64]
  else if n < 65536 then [224 + n / 4096, 128 + n / 64 % 64, 128 + n % 64]
  else [240 + n / 262144, 128 + n / 4096 % 64, 128 + n / 64 % 64, 128 + n % 64]

/-- Uppercase hex of a byte, two digits. -/
def hexByte (b : Nat) : String :=
  let d := fun x => if x < 10 then Nat.digitChar x else Char.ofNat (55 + x)
  String.mk [d (b / 16), d (b % 16)]

/-- The `form_urlencoded` byte serialization: alphanumerics and `*-._`
unchanged, space becomes `+`, everything else percent-encoded per UTF-8
byte. -/
def percentEncodeChar (c : Char) : String :=
  if c.isAlphanum ∨ c = '*' ∨ c = '-' ∨ c = '.' ∨ c = '_' then String.singleton c
  else if c = ' ' then "+"
  else String.join ((utf8Bytes c.toNat).map (fun b => "%" ++ hexByte b))

def percentEncode (s : String) : String :=
  String.join (s.data.map percentEncodeChar)

/-- A JSON value serde_urlencoded can use as a form value: strings,
numbers and booleans; null, arrays and objects are unsupported. -/
def formValue : Json → Option String
  | .str s => some s
  | .num n => some (toString n)
  | .fnum s => some s
  | .bool true => some "true"
  | .bool false => some "false"
  | _ => none

/-- The `serde_urlencoded::to_string` of a `serde_json::Value`: only a
top-level object of primitive values serializes; anything else is an
error (`none`). -/
def formEncodeJson : Json → Option String
  | .obj kvs =>
      (kvs.mapM (fun p => (formValue p.2).map
        (fun v => percentEncode p.1 ++ "=" ++ percentEncode v))).map
        (String.intercalate "&")
  | _ => none

mutual

/-- True when a value contains no `fnum` leaf: on such values the
model's serializers agree with serde_json exactly (float leaves
re-serialize through f64/ryu, outside the model). -/
def Json.noFloat : Json → Bool
  | .fnum _ => false
  | .arr xs => noFloatItems xs
  | .obj kvs => noFloatMembers kvs
  | .null => true
  | .bool _ => true
  | .num _ => true
  | .str _ => true

def noFloatItems : List Json → Bool
  | [] => true
  | j :: rest => j.noFloat && noFloatItems rest

def noFloatMembers : List (String × Json) → Bool
  | [] => true
  | (_, v) :: rest => v.noFloat && noFloatMembers rest

end

/-- Split at the first occurrence of a character (`str::splitn(2, c)`):
`none` when the character is absent. -/
def splitFirst (sep : Char) : List Char → Option (List Char × List Char)
  | [] => none
  | c :: rest =>
      if c = sep then some ([], rest)
      else (splitFirst sep rest).map (fun p => (c :: p.1, p.2))

/-- Split on every occurrence of a character (`str::split(c)`). -/
def splitOnChar (sep : Char) : List Char → List (List Char)
  | [] => [[]]
  | c :: rest =>
      match splitOnChar sep rest with
      | [] => [[c]]
      | g :: gs => if c = sep then [] :: g :: gs else (c :: g) :: gs

/-- The `str::trim` (whitespace modelled as ASCII whitespace). -/
def trimChars (cs : List Char) : List Char :=
  ((cs.dropWhile Char.isWhitespace).reverse.dropWhile Char.isWhitespace).reverse

def rustTrim (s : String) : String :=
  String.mk (trimChars s.data)

/-- ASCII lowercasing of a string. -/
def lowerStr (s : String) : String :=
  String.mk (s.data.map Char.toLower)

/-- Valid `http::HeaderName` character (RFC 7230 token, as in the http
crate's table); uppercase letters are normalized to lowercase. -/
def headerNameChar (c : Char) : Bool :=
  c.isAlpha ∨ c.isDigit ∨ c = '!' ∨ c = '#' ∨ c = '$' ∨ c = '%' ∨ c = '&' ∨
  c.toNat = 39 ∨ c = '*' ∨ c = '+' ∨ c = '-' ∨ c = '.' ∨ c = '^' ∨ c = '_' ∨
  c.toNat = 96 ∨ c = '|' ∨ c = '~'

/-- The `HeaderName::from_str`: rejects the empty string and non-token
characters; the stored name is lowercased. -/
def parseHeaderName (s : String) : Option String :=
  if s.data ≠ [] ∧ s.data.all headerNameChar then some (lowerStr s) else none

/-- The `HeaderValue::from_str`: every byte must be horizontal tab or in
32..=255 except DEL (modelled per character). -/
def parseHeaderValue (s : String) : Option String :=
  if s.data.all (fun c => c = '\t' ∨ (32 ≤ c.toNat ∧ c.toNat ≠ 127)) then some s else none

/-- The `reqwest::header::HeaderMap`, with names stored lowercase; modelled
as its entry list in insertion order. -/
abbrev HeaderMap := List (String × String)

def hmContains (m : HeaderMap) (k : String) : Bool :=
  m.any (fun p => p.1 = k)

/-- The `HeaderMap::insert`: replaces the value of an existing name in
place, otherwise appends. -/
def hmInsert (k v : String) (m : HeaderMap) : HeaderMap :=
  if hmContains m k then m.map (fun p => if p.1 = k then (k, v) else p) else m ++ [(k, v)]

def hmGet (m : HeaderMap) (k : String) : Option String :=
  (m.find? (fun p => p.1 = k)).map (fun p => p.2)

/-- Visible-ASCII test of the http crate (`is_visible_ascii`): bytes
32..126 and horizontal tab.  Used both by `HeaderValue::to_str` and by
the `HeaderValue` debug rendering. -/
def visibleAscii (n : Nat) : Bool :=
  (32 ≤ n ∧ n < 127) ∨ n = 9

/-- The `HeaderValue::to_str`: yields the value only when every byte is
visible ASCII; a value containing a byte outside that range (which
`HeaderValue::from_str` accepts) is an error — and `get_content_type`
unwraps it, an abort. -/
def headerValueToStr (s : String) : Option String :=
  if s.data.all (fun c => visibleAscii c.toNat) then some s else none

/-- The `get_content_type`:
`headers.get(CONTENT_TYPE).and_then(|v| v.to_str().unwrap().split(';').next()...)`
— the Content-Type header value up to the first `;`; `.error ()` is the
`to_str().unwrap()` abort on a non-visible-ASCII value. -/
def getContentType (headers : HeaderMap) : Except Unit (Option String) :=
  match hmGet headers "content-type" with
  | none => .ok none
  | some v =>
      match headerValueToStr v with
      | none => .error ()
      | some v' => .ok (some (String.mk (v'.data.takeWhile (fun c => c ≠ ';'))))

/-- The `ExtraArgs`: the override set, already split into header/query/body
key-value lists. -/
structure ExtraArgs where
  headers : List (String × String)
  query : List (String × String)
  body : List (String × String)
  deriving Repr

/-- HTTP method (`reqwest::Method`). -/
inductive Method where
  | GET | POST | PUT | DELETE | HEAD | PATCH | OPTIONS
  deriving Repr, DecidableEq

/-- The `url::Url`, modelled as the serialization split at the first `?`:
`base` is everything before it, `query` everything after it.  Host/path
normalization performed by the url crate is outside the model. -/
structure Url where
  base : String
  query : Option String
  deriving Repr, DecidableEq

def Url.toString (u : Url) : String :=
  u.base ++ (match u.query with | some q => "?" ++ q | none => "")

/-- The `RequestProfile` (src/src/config/mod.rs; src/src/req.rs declares the
same shape). -/
structure RequestProfile where
  method : Method
  url : Url
  params : Option Json
  headers : HeaderMap
  body : Option Json
  deriving Repr

/-- Error/abort outcomes of `generate` and `get_url`.  `indexPanic`,
`toStrPanic`, `headerAbort` and `asObjectPanic` are aborts
(`unwrap`/`panic`-class), the others ordinary `anyhow` errors. -/
inductive GenError where
  | headerName
  | headerAbort
  | valueParse
  | indexPanic
  | toStrPanic
  | unsupported (ct : Option String)
  | formEncode
  | asObjectPanic
  deriving Repr, DecidableEq

/-- serde_json `IndexMut` by string key on `Value`: inserts into an
object, turns null into a one-entry object, aborts on anything else. -/
def setKey (j : Json) (k : String) (v : Json) : Option Json :=
  match j with
  | .obj kvs => some (.obj (insertSorted k v kvs))
  | .null => some (.obj [(k, v)])
  | _ => none

/-- One iteration of the query/body override loop of `generate`:
`target[k] = v.parse()?` — the right-hand parse error propagates first,
then the index can abort. -/
def overrideStep (q : Json) (p : String × String) : Except GenError Json :=
  match parseJson p.2 with
  | none => .error .valueParse
  | some jv =>
      match setKey q p.1 jv with
      | none => .error .indexPanic
      | some q' => .ok q'

/-- The query/body override loop of `generate`. -/
def mergeOverrides (init : Json) (kvs : List (String × String)) : Except GenError Json :=
  kvs.foldlM overrideStep init

/-- Serialization step at the end of `generate`: reading the merged
Content-Type can abort (`to_str().unwrap()` on a non-visible-ASCII
value); otherwise the body is encoded according to the merged
Content-Type, and any other content type is the
unsupported-content-type error. -/
def serializeBody (headers : HeaderMap) (query body : Json) :
    Except GenError (HeaderMap × Json × String) :=
  match getContentType headers with
  | .error _ => .error .toStrPanic
  | .ok (some "application/json") => .ok (headers, query, jsonEncode body)
  | .ok (some "application/x-www-form-urlencoded") =>
      (match formEncodeJson body with
       | some s => .ok (headers, query, s)
       | none => .error .formEncode)
  | .ok (some "multipart/form-data") =>
      (match formEncodeJson body with
       | some s => .ok (headers, query, s)
       | none => .error .formEncode)
  | .ok ct => .error (.unsupported ct)

namespace ConfigMod

/-- One header-override insertion in src/src/config/mod.rs:
`headers.insert(HeaderName::from_str(k)?, HeaderName::from_str(v)?.into())`
— the value, too, is parsed as a header *name* (token characters only,
lowercased), and a failure is an ordinary error. -/
def headerStep (m : HeaderMap) (p : String × String) : Except GenError HeaderMap :=
  match parseHeaderName p.1 with
  | none => .error .headerName
  | some k =>
      match parseHeaderName p.2 with
      | none => .error .headerName
      | some v => .ok (hmInsert k v m)

/-- Header phase of `generate` in src/src/config/mod.rs: start from an
empty map, insert each override, then default Content-Type to
application/json when absent. -/
def mergedHeaders (args : ExtraArgs) : Except GenError HeaderMap :=
  match args.headers.foldlM headerStep ([] : HeaderMap) with
  | .error e => .error e
  | .ok h =>
      .ok (if hmContains h "content-type" then h
           else hmInsert "content-type" "application/json" h)

/-- The `RequestProfile::generate` (src/src/config/mod.rs): merged headers,
merged query, and the body serialized according to the merged
Content-Type. -/
def generate (p : RequestProfile) (args : ExtraArgs) :
    Except GenError (HeaderMap × Json × String) :=
  match mergedHeaders args with
  | .error e => .error e
  | .ok headers =>
      match mergeOverrides (p.params.getD (.obj [])) args.query with
      | .error e => .error e
      | .ok query =>
          match mergeOverrides (p.body.getD (.obj [])) args.body with
          | .error e => .error e
          | .ok body => serializeBody headers query body

end ConfigMod

namespace Req

/-- One header-override insertion in src/src/req.rs:
`headers.insert(HeaderName::from_str(k).unwrap(), v.parse().unwrap())` —
the value is a `HeaderValue`, and a parse failure is an abort
(`unwrap`), not an error. -/
def headerStep (m : HeaderMap) (p : String × String) : Except GenError HeaderMap :=
  match parseHeaderName p.1 with
  | none => .error .headerAbort
  | some k =>
      match parseHeaderValue p.2 with
      | none => .error .headerAbort
      | some v => .ok (hmInsert k v m)

/-- Header phase of `generate` in src/src/req.rs: start from an empty
map, insert each override, then default Content-Type to
application/json when absent. -/
def mergedHeaders (args : ExtraArgs) : Except GenError HeaderMap :=
  match args.headers.foldlM headerStep ([] : HeaderMap) with
  | .error e => .error e
  | .ok h =>
      .ok (if hmContains h "content-type" then h
           else hmInsert "content-type" "application/json" h)

/-- The `RequestProfile::generate` (src/src/req.rs — the variant the crate
root re-exports). -/
def generate (p : RequestProfile) (args : ExtraArgs) :
    Except GenError (HeaderMap × Json × String) :=
  match mergedHeaders args with
  | .error e => .error e
  | .ok headers =>
      match mergeOverrides (p.params.getD (.obj [])) args.query with
      | .error e => .error e
      | .ok query =>
          match mergeOverrides (p.body.getD (.obj [])) args.body with
          | .error e => .error e
          | .ok body => serializeBody headers query body

end Req

mutual

/-- The `serde_qs::to_string` of a `serde_json::Value` (modelled): scalar
leaves become `prefix=value` pairs, nested containers use bracketed
keys. -/
def qsPairs (prefix₁ : String) : Json → List String
  | .null => [prefix₁ ++ "="]
  | .bool true => [prefix₁ ++ "=true"]
  | .bool false => [prefix₁ ++ "=false"]
  | .num n => [prefix₁ ++ "=" ++ toString n]
  | .fnum s => [prefix₁ ++ "=" ++ percentEncode s]
  | .str s => [prefix₁ ++ "=" ++ percentEncode s]
  | .obj kvs => qsMembers prefix₁ kvs
  | .arr xs => qsItems prefix₁ 0 xs

def qsMembers (prefix₁ : String) : List (String × Json) → List String
  | [] => []
  | (k, v) :: rest =>
      qsPairs (prefix₁ ++ "[" ++ percentEncode k ++ "]") v ++ qsMembers prefix₁ rest

def qsItems (prefix₁ : String) (i : Nat) : List Json → List String
  | [] => []
  | v :: rest => qsPairs (prefix₁ ++ "[" ++ toString i ++ "]") v ++ qsItems prefix₁ (i + 1) rest

end

/-- Top-level `serde_qs::to_string` of an object (modelled). -/
def qsEncode (kvs : List (String × Json)) : String :=
  String.intercalate "&" (kvs.flatMap (fun p => qsPairs (percentEncode p.1) p.2))

namespace ConfigMod

/-- The `RequestProfile::get_url` (src/src/config/mod.rs): run `generate`,
`unwrap` the merged params as an object (an abort when they are not),
and append them as a query string unless empty. -/
def get_url (p : RequestProfile) (args : ExtraArgs) : Except GenError String :=
  match generate p args with
  | .error e => .error e
  | .ok (_, params, _) =>
      match params with
      | .obj kvs =>
          if kvs.isEmpty then .ok p.url.toString
          else .ok (Url.toString { p.url with query := some (qsEncode kvs) })
      | _ => .error .asObjectPanic

end ConfigMod

/-- Validation failures of `RequestProfile::validate` (the spec's
`InvalidShape`); the Rust error message embeds a YAML dump of the
offending value, which is presentation only. -/
inductive ValidateError where
  | paramsNotObject
  | bodyNotObject
  deriving Repr, DecidableEq

/-- The body check of `validate`. -/
def bodyShapeCheck (body : Option Json) : Except ValidateError Unit :=
  match body with
  | some b => if b.isObject then .ok () else .error .bodyNotObject
  | none => .ok ()

/-- The `ConfigValidate for RequestProfile` (src/src/config/mod.rs): params
then body must each be absent or object-typed; the first offender is
reported. -/
def RequestProfile.validate (p : RequestProfile) : Except ValidateError Unit :=
  match p.params with
  | some param =>
      if param.isObject then bodyShapeCheck p.body else .error .paramsNotObject
  | none => bodyShapeCheck p.body

/-- Percent-decoding as `form_urlencoded` does for `query_pairs`: `+`
becomes space, `%XX` hex escapes are decoded (single-byte code points in
this model; malformed escapes pass through). -/
def decodeFormChars : List Char → List Char
  | [] => []
  | '+' :: rest => ' ' :: decodeFormChars rest
  | '%' :: h :: l :: rest =>
      match hexDigit h, hexDigit l with
      | some a, some b =>
          if a * 16 + b < 128 then Char.ofNat (a * 16 + b) :: decodeFormChars rest
          else '%' :: decodeFormChars (h :: l :: rest)
      | _, _ => '%' :: decodeFormChars (h :: l :: rest)
  | c :: rest => c :: decodeFormChars rest

def decodeForm (s : String) : String :=
  String.mk (decodeFormChars s.data)

/-- The `Url::query_pairs`: split the raw query on `&`, drop empty
segments, split each segment at the first `=` (missing value is empty),
percent-decode both sides. -/
def queryPairs (q : String) : List (String × String) :=
  ((splitOnChar '&' q.data).filter (fun seg => seg ≠ [])).map (fun seg =>
    match splitFirst '=' seg with
    | none => (decodeForm (String.mk seg), "")
    | some (k, v) => (decodeForm (String.mk k), decodeForm (String.mk v)))

/-- The `Url::parse` (modelled): accepts strings of shape
`scheme://rest`, a nonempty ASCII-alphabetic scheme and nonempty rest,
and records the part after the first `?` as the query.  Host and path
normalization done by the url crate is outside the model. -/
def splitScheme : List Char → Option (List Char × List Char)
  | ':' :: '/' :: '/' :: rest => some ([], rest)
  | c :: rest => (splitScheme rest).map (fun p => (c :: p.1, p.2))
  | [] => none

def urlParse (s : String) : Option Url :=
  match splitScheme s.data with
  | none => none
  | some (scheme, tail) =>
      if scheme ≠ [] ∧ scheme.all Char.isAlpha ∧ tail ≠ [] then
        match splitFirst '?' s.data with
        | none => some { base := s, query := none }
        | some (b, q) => some { base := String.mk b, query := some (String.mk q) }
      else none

/-- Failures of `FromStr for RequestProfile`. -/
inductive FromStrError where
  | urlParseError
  | valueParse
  deriving Repr, DecidableEq

/-- The `FromStr for RequestProfile` (src/src/config/mod.rs): parse the URL,
move every query pair into `params` via `v.parse::<serde_json::Value>()?`
(which *fails* on values that are not valid JSON), strip the query, and
return a GET profile with empty headers and no body.
`paramsOfPairs` is the query-pair loop. -/
def paramsOfPairs (pairs : List (String × String)) : Except FromStrError (List (String × Json)) :=
  pairs.foldlM (fun acc p =>
      match parseJson p.2 with
      | some jv => pure (insertSorted p.1 jv acc)
      | none => throw .valueParse) ([] : List (String × Json))

def mkParsedProfile (url : Url) (params : List (String × Json)) : RequestProfile :=
  { method := .GET
    url := { url with query := none }
    params := some (.obj params)
    headers := []
    body := none }

def RequestProfile.fromStr (s : String) : Except FromStrError RequestProfile :=
  match urlParse s with
  | none => .error .urlParseError
  | some url =>
      match paramsOfPairs (queryPairs (url.query.getD "")) with
      | .error e => .error e
      | .ok params => .ok (mkParsedProfile url params)

/-- The `KeyValType` (src/src/cli.rs). -/
inductive KeyValType where
  | query | header | body
  deriving Repr, DecidableEq

/-- The `KeyVal` (src/src/cli.rs). -/
structure KeyVal where
  key_type : KeyValType
  key : String
  value : String
  deriving Repr, DecidableEq

/-- Errors of `parse_key_val`. -/
inductive CliError where
  | invalidKeyValuePair
  | invalidKeyType
  deriving Repr, DecidableEq

/-- The `parse_key_val` (src/src/cli.rs): split at the first `=`
(`splitn(2, '=')`; no `=` at all is an invalid pair), trim both sides,
then classify by the trimmed key's first character: `%` strips the sigil
and yields a header override, `@` a body override, an ASCII letter a
query override, anything else (or an empty key) is an invalid key
type. -/
def classifyTrimmed (key value : String) : Except CliError KeyVal :=
  match key.data with
  | '%' :: ks => .ok { key_type := .header, key := String.mk ks, value := value }
  | '@' :: ks => .ok { key_type := .body, key := String.mk ks, value := value }
  | c :: _ =>
      if c.isAlpha then .ok { key_type := .query, key := key, value := value }
      else .error .invalidKeyType
  | [] => .error .invalidKeyType

def parse_key_val (s : String) : Except CliError KeyVal :=
  match splitFirst '=' s.data with
  | none => .error .invalidKeyValuePair
  | some (k, v) => classifyTrimmed (rustTrim (String.mk k)) (rustTrim (String.mk v))

/-- The `ResponseProfile` (src/src/config/xdiff.rs): the skip lists for
response normalization. -/
structure ResponseProfile where
  skip_headers : List String
  skip_body : List String
  deriving Repr

/-- The `DiffProfile` (src/src/config/xdiff.rs). -/
structure DiffProfile where
  req1 : RequestProfile
  req2 : RequestProfile
  res : ResponseProfile
  deriving Repr

/-- The `DiffConfig` (src/src/config/xdiff.rs): profiles by name.  The
`HashMap` is modelled as its entry list with unique names; `get` is
lookup by name. -/
structure DiffConfig where
  profiles : List (String × DiffProfile)
  deriving Repr

/-- The `DiffConfig::get_profile`. -/
def DiffConfig.get_profile (c : DiffConfig) (name : String) : Option DiffProfile :=
  (c.profiles.find? (fun p => p.1 = name)).map (fun p => p.2)

/-- The `RequestConfig` (src/src/config/xreq.rs). -/
structure RequestConfig where
  profiles : List (String × RequestProfile)
  deriving Repr

/-- The `RequestConfig::get_profile`. -/
def RequestConfig.get_profile (c : RequestConfig) (name : String) : Option RequestProfile :=
  (c.profiles.find? (fun p => p.1 = name)).map (fun p => p.2)

/-- The `{:?}` rendering of a `HeaderValue`: double-quoted, `"` escaped,
non-visible bytes as `\xHH`. -/
def debugQuote (s : String) : String :=
  "\"" ++ String.join (s.data.map (fun c =>
    if c = '"' then "\\\""
    else if visibleAscii c.toNat then String.singleton c
    else "\\x" ++ String.mk [Nat.digitChar (c.toNat / 16 % 16), Nat.digitChar (c.toNat % 16)])) ++ "\""

/-- The header loop of `get_heardes_text` (src/src/config/mod.rs):
`writeln!("{}: {:?}", name, value)` for every response header whose
(lowercase, as stored) name is not literally contained in
`skip_headers`. -/
def headerLines (skip_headers : List String) : List (String × String) → String
  | [] => ""
  | (n, v) :: rest =>
      (if skip_headers.contains n then "" else n ++ ": " ++ debugQuote v ++ "\n") ++
      headerLines skip_headers rest

/-- The `get_heardes_text` (src/src/config/mod.rs): the filtered header
lines followed by one blank line.  (The status line is produced
separately by `get_status_text`.) -/
def get_heardes_text (headers : List (String × String)) (skip_headers : List String) : String :=
  headerLines skip_headers headers ++ "\n"

/-- Failures of body normalization: `bodyDecode` is the spec's
`BodyDecodeError`; `toStrPanic` is the `to_str().unwrap()` abort in
`get_content_type` on a non-visible-ASCII Content-Type value. -/
inductive BodyError where
  | bodyDecode
  | toStrPanic
  deriving Repr, DecidableEq

/-- The `filter_json` (src/src/config/mod.rs): parse the body as JSON
(failure propagates), remove each skip key when the root is an object,
pretty-print the result. -/
def filter_json (text : String) (skip : List String) : Except BodyError String :=
  match parseJson text with
  | none => .error .bodyDecode
  | some j =>
      .ok (toStringPretty (match j with
        | .obj m => .obj (removeKeys skip m)
        | j' => j'))

/-- The `get_body_text` (src/src/config/mod.rs): reading the content
type can abort (`to_str().unwrap()`); JSON bodies go through
`filter_json`, every other content type is written out unchanged; the
`writeln!` appends one newline. -/
def get_body_text (headers : HeaderMap) (text : String) (skip : List String) :
    Except BodyError String :=
  match getContentType headers with
  | .error _ => .error .toStrPanic
  | .ok (some "application/json") =>
      (match filter_json text skip with
       | .error e => .error e
       | .ok t => .ok (t ++ "\n"))
  | .ok _ => .ok (text ++ "\n")

/-- Split a text into lines, each keeping its terminating newline; a
last line without one is kept as-is (`similar::TextDiff::from_lines`
tokenization). -/
def splitLinesAux (acc : List Char) : List Char → List String
  | [] => if acc = [] then [] else [String.mk acc.reverse]
  | '\n' :: rest => String.mk (acc.reverse ++ ['\n']) :: splitLinesAux [] rest
  | c :: rest => splitLinesAux (c :: acc) rest

def splitLinesKeepEnds (s : String) : List String :=
  splitLinesAux [] s.data

/-- The `similar::ChangeTag`. -/
inductive Tag where
  | equal | delete | insert
  deriving Repr, DecidableEq

/-- Number of non-equal operations of an edit script. -/
def scriptCost (ops : List (Tag × String)) : Nat :=
  ops.countP (fun p => p.1 != Tag.equal)

/-- A minimal line-level edit script between two line sequences (the
contract of `similar::TextDiff`: an LCS-family diff; matching heads are
taken as `equal`, otherwise the cheaper of deleting or inserting is
chosen). -/
def diffOps : List String → List String → List (Tag × String)
  | [], [] => []
  | [], y :: ys => (Tag.insert, y) :: diffOps [] ys
  | x :: xs, [] => (Tag.delete, x) :: diffOps xs []
  | x :: xs, y :: ys =>
      if x = y then (Tag.equal, x) :: diffOps xs ys
      else
        let d := (Tag.delete, x) :: diffOps xs (y :: ys)
        let i := (Tag.insert, y) :: diffOps (x :: xs) ys
        if scriptCost d ≤ scriptCost i then d else i
  termination_by xs ys => xs.length + ys.length

/-- One rendered change: old/new line indices (as `similar` reports
them), tag, and the line text. -/
structure Change where
  old : Option Nat
  new : Option Nat
  tag : Tag
  text : String
  deriving Repr, DecidableEq

/-- Assign old/new indices along the edit script. -/
def annotate (i j : Nat) : List (Tag × String) → List Change
  | [] => []
  | (Tag.equal, t) :: rest =>
      { old := some i, new := some j, tag := .equal, text := t } :: annotate (i + 1) (j + 1) rest
  | (Tag.delete, t) :: rest =>
      { old := some i, new := none, tag := .delete, text := t } :: annotate (i + 1) j rest
  | (Tag.insert, t) :: rest =>
      { old := none, new := some j, tag := .insert, text := t } :: annotate i (j + 1) rest

/-- Maximal runs of visibility-marked operations (`cur` is the current
run, reversed): invisible operations separate the hunks. -/
def gatherRunsGo : List (Bool × Change) → List Change → List (List Change)
  | [], cur => if cur.isEmpty then [] else [cur.reverse]
  | (false, _) :: rest, cur =>
      if cur.isEmpty then gatherRunsGo rest [] else cur.reverse :: gatherRunsGo rest []
  | (true, c) :: rest, cur => gatherRunsGo rest (c :: cur)

def gatherRuns (l : List (Bool × Change)) : List (List Change) :=
  gatherRunsGo l []

/-- The `similar`'s `grouped_ops(ctx)` at line granularity: an operation is
visible when it is within `ctx` lines of some non-equal operation; the
hunks are the maximal visible runs.  A change-free script yields no
hunks. -/
def groupedOps (ctx : Nat) (changes : List Change) : List (List Change) :=
  let chIdx := changes.enum.filterMap (fun p => if p.2.tag ≠ Tag.equal then some p.1 else none)
  gatherRuns (changes.enum.map (fun p =>
    (chIdx.any (fun j => decide (p.1 ≤ j + ctx ∧ j ≤ p.1 + ctx)), p.2)))

/-- The `{:<4}` rendering of `Line`: 1-based index left-padded to width
4, or four spaces when absent. -/
def lineNumText : Option Nat → String
  | none => "    "
  | some i =>
      let s := toString (i + 1)
      s ++ String.mk (List.replicate (4 - s.length) ' ')

def signText : Tag → String
  | .delete => "-"
  | .insert => "+"
  | .equal => " "

/-- One rendered line of `diff_text` with colors disabled: line numbers,
`" |"`, the sign, the line text, and the newline `writeln!` adds when
the line itself has none (`missing_newline`). -/
def renderChange (c : Change) : String :=
  lineNumText c.old ++ lineNumText c.new ++ " |" ++ signText c.tag ++
  c.text ++ (if c.text.data.getLast? = some '\n' then "" else "\n")

def renderGroup (g : List Change) : String :=
  String.join (g.map renderChange)

/-- The 80-dash divider `writeln!("{:-^1$}", "-", 80)` emits between
hunks. -/
def sepLine : String :=
  String.mk (List.replicate 80 '-') ++ "\n"

def renderGroups : List (List Change) → String
  | [] => ""
  | g :: rest => renderGroup g ++ String.join (rest.map (fun g' => sepLine ++ renderGroup g'))

/-- The `diff_text` (src/src/utils.rs): line diff, context grouping with
window 3, plain rendering (ANSI styling disabled; sub-line emphasis is
styling only and does not change the text). -/
def diff_text (text1 text2 : String) : String :=
  renderGroups (groupedOps 3 (annotate 0 0 (diffOps (splitLinesKeepEnds text1) (splitLinesKeepEnds text2))))

/-! ## Shared sample values and helper lemmas -/

def sampleUrl : Url := { base := "https://example.com/path", query := none }

def sampleReq : RequestProfile :=
  { method := .GET, url := sampleUrl, params := none, headers := [], body := none }

def sampleDiffProfile : DiffProfile :=
  { req1 := sampleReq, req2 := sampleReq, res := { skip_headers := [], skip_body := [] } }

theorem find?_key_of_mem {α : Type} {l : List (String × α)} {name : String} {p : α}
    (hnd : (l.map Prod.fst).Nodup) (hm : (name, p) ∈ l) :
    l.find? (fun q => q.1 = name) = some (name, p) := by
  induction l with
  | nil => cases hm
  | cons head tail ih =>
    rcases List.mem_cons.mp hm with hm' | hm'
    · rw [← hm']
      exact List.find?_cons_of_pos _ (by simp)
    · have hname : name ∈ tail.map Prod.fst :=
        List.mem_map.mpr ⟨(name, p), hm', rfl⟩
      have hne : ¬ (head.1 = name) := by
        intro he
        exact (List.nodup_cons.mp (by simpa using hnd)).1 (he ▸ hname)
      rw [List.find?_cons_of_neg _ (by simpa using hne)]
      exact ih (List.nodup_cons.mp (by simpa using hnd)).2 hm'

/-- C3: a `RequestProfile` whose `params` and `body` are each absent or
JSON objects validates successfully, and `validate` fails (with the
shape error) exactly when one of them is present and not
object-typed. -/
theorem validate_ok_iff (p : RequestProfile) :
    p.validate = .ok () ↔
      ((∀ v, p.params = some v → v.isObject = true) ∧
       (∀ v, p.body = some v → v.isObject = true)) := by
  rcases p with ⟨m, u, params, hs, body⟩
  rcases params with _ | v <;> rcases body with _ | w <;>
      simp only [RequestProfile.validate, bodyShapeCheck] <;>
      first
        | (split_ifs <;> simp_all)
        | simp_all

/-- Witness for C3 at a concrete profile. -/
theorem validate_ok_iff_witness :
    RequestProfile.validate
      { method := .GET, url := sampleUrl, params := some (.obj [("page", .num 2)]),
        headers := [], body := none } = .ok () := by
  refine (validate_ok_iff _).mpr ⟨?_, ?_⟩
  · intro v hv
    cases hv
    rfl
  · intro v hv
    cases hv

/-- C8: looking a name up in a profile store returns the stored profile
when the name is present (names being unique) and `none` — the
recoverable profile-not-found outcome — when it is absent; both
`DiffConfig` and `RequestConfig` behave this way, and the lookup is a
total function (it cannot panic). -/
theorem get_profile_found_or_missing (c : DiffConfig) (r : RequestConfig) (name : String) :
    (∀ p, (c.profiles.map Prod.fst).Nodup → (name, p) ∈ c.profiles →
        c.get_profile name = some p)
  ∧ ((∀ p, (name, p) ∉ c.profiles) → c.get_profile name = none)
  ∧ (∀ p, (r.profiles.map Prod.fst).Nodup → (name, p) ∈ r.profiles →
        r.get_profile name = some p)
  ∧ ((∀ p, (name, p) ∉ r.profiles) → r.get_profile name = none) := by
  refine ⟨?_, ?_, ?_, ?_⟩
  · intro p hnd hm
    unfold DiffConfig.get_profile
    rw [find?_key_of_mem hnd hm]
    rfl
  · intro habs
    unfold DiffConfig.get_profile
    have h : c.profiles.find? (fun q => q.1 = name) = none := by
      refine List.find?_eq_none.mpr ?_
      intro x hx hx1
      have hx1' : x.1 = name := by simpa using hx1
      have hxx : (name, x.2) = x := by rw [← hx1']
      exact habs x.2 (hxx ▸ hx)
    rw [h]
    rfl
  · intro p hnd hm
    unfold RequestConfig.get_profile
    rw [find?_key_of_mem hnd hm]
    rfl
  · intro habs
    unfold RequestConfig.get_profile
    have h : r.profiles.find? (fun q => q.1 = name) = none := by
      refine List.find?_eq_none.mpr ?_
      intro x hx hx1
      have hx1' : x.1 = name := by simpa using hx1
      have hxx : (name, x.2) = x := by rw [← hx1']
      exact habs x.2 (hxx ▸ hx)
    rw [h]
    rfl

/-- Witness for C8: a one-profile store, present and absent names. -/
theorem get_profile_witness :
    DiffConfig.get_profile ⟨[("prod", sampleDiffProfile)]⟩ "prod" = some sampleDiffProfile ∧
    DiffConfig.get_profile ⟨[("prod", sampleDiffProfile)]⟩ "missing-name" = none := by
  constructor
  · exact (get_profile_found_or_missing ⟨[("prod", sampleDiffProfile)]⟩ ⟨[]⟩ "prod").1
      sampleDiffProfile (by simp) (by simp)
  · exact (get_profile_found_or_missing ⟨[("prod", sampleDiffProfile)]⟩ ⟨[]⟩ "missing-name").2.1
      (by intro p hp; simp at hp)

/-- C9: an override directive that contains `=` is classified by the
trimmed key's leading character: `%` strips the sigil and gives a header
override, `@` a body override, an ASCII letter a (plain) query override,
and any other leading character (or an empty key) is the invalid-key
error. -/
theorem parse_key_val_classifies (s : String) (k v : List Char)
    (h1 : splitFirst '=' s.data = some (k, v)) :
    (∀ ks, trimChars k = '%' :: ks →
        parse_key_val s = .ok ⟨.header, String.mk ks, String.mk (trimChars v)⟩)
  ∧ (∀ ks, trimChars k = '@' :: ks →
        parse_key_val s = .ok ⟨.body, String.mk ks, String.mk (trimChars v)⟩)
  ∧ (∀ c cs, trimChars k = c :: cs → c.isAlpha = true →
        parse_key_val s = .ok ⟨.query, String.mk (trimChars k), String.mk (trimChars v)⟩)
  ∧ (∀ c cs, trimChars k = c :: cs → c.isAlpha = false → c ≠ '%' → c ≠ '@' →
        parse_key_val s = .error .invalidKeyType)
  ∧ (trimChars k = [] → parse_key_val s = .error .invalidKeyType) := by
  have hbase : parse_key_val s =
      classifyTrimmed (rustTrim (String.mk k)) (rustTrim (String.mk v)) := by
    unfold parse_key_val
    rw [h1]
  have hdata : (rustTrim (String.mk k)).data = trimChars k := rfl
  have hkey : rustTrim (String.mk k) = String.mk (trimChars k) := rfl
  have hval : rustTrim (String.mk v) = String.mk (trimChars v) := rfl
  refine ⟨?_, ?_, ?_, ?_, ?_⟩
  · intro ks hk
    rw [hbase, hval]
    unfold classifyTrimmed
    rw [hdata, hk]
    rfl
  · intro ks hk
    rw [hbase, hval]
    unfold classifyTrimmed
    rw [hdata, hk]
    rfl
  · intro c cs hk hα
    rw [hbase, hkey, hval]
    unfold classifyTrimmed
    rw [show (String.mk (trimChars k)).data = trimChars k from rfl, hk]
    have hc1 : c ≠ '%' := by
      intro h
      rw [h] at hα
      exact absurd hα (by decide)
    have hc2 : c ≠ '@' := by
      intro h
      rw [h] at hα
      exact absurd hα (by decide)
    split
    · next ks' heq =>
        injection heq with e1 e2
        exact absurd e1 hc1
    · next ks' heq =>
        injection heq with e1 e2
        exact absurd e1 hc2
    · next c' tail heq =>
        injection heq with e1 e2
        rw [← e1, hα]
        rfl
    · next heq => exact absurd heq (by simp)
  · intro c cs hk hα hc1 hc2
    rw [hbase]
    unfold classifyTrimmed
    rw [hdata, hk]
    split
    · next ks' heq =>
        injection heq with e1 e2
        exact absurd e1 hc1
    · next ks' heq =>
        injection heq with e1 e2
        exact absurd e1 hc2
    · next c' tail heq =>
        injection heq with e1 e2
        rw [← e1, hα]
        rfl
    · next heq => exact absurd heq (by simp)
  · intro hk
    rw [hbase]
    unfold classifyTrimmed
    rw [hdata, hk]

/-- Witness for C9: the three directive forms and an invalid leading
character, at concrete inputs. -/
theorem parse_key_val_witness :
    parse_key_val "%Content-Type=application/json" =
      .ok ⟨.header, "Content-Type", "application/json"⟩ ∧
    parse_key_val "@name=hello" = .ok ⟨.body, "name", "hello"⟩ ∧
    parse_key_val "page=2" = .ok ⟨.query, "page", "2"⟩ ∧
    parse_key_val "1a=2" = .error .invalidKeyType := by
  refine ⟨?_, ?_, ?_, ?_⟩
  · exact (parse_key_val_classifies "%Content-Type=application/json" "%Content-Type".data
      "application/json".data rfl).1 "Content-Type".data rfl
  · exact (parse_key_val_classifies "@name=hello" "@name".data "hello".data rfl).2.1
      "name".data rfl
  · exact (parse_key_val_classifies "page=2" "page".data "2".data rfl).2.2.1
      'p' "age".data rfl (by decide)
  · exact (parse_key_val_classifies "1a=2" "1a".data "2".data rfl).2.2.2.1
      '1' ['a'] rfl (by decide) (by decide) (by decide)

/-- C1: the merged header map is built from the overrides alone — the
template's own headers never enter it, so a template header does *not*
survive the merge (this holds for both `generate` variants); concretely,
a template carrying `x-token: secret` and no overrides produces a merged
header map containing only the defaulted Content-Type. -/
theorem generate_ignores_template_headers :
    (∀ (p : RequestProfile) (h' : HeaderMap) (args : ExtraArgs),
        Req.generate p args = Req.generate { p with headers := h' } args)
  ∧ (∀ (p : RequestProfile) (h' : HeaderMap) (args : ExtraArgs),
        ConfigMod.generate p args = ConfigMod.generate { p with headers := h' } args)
  ∧ Req.generate
      { method := .GET, url := { base := "https://example.com", query := none },
        params := none, headers := [("x-token", "secret")], body := none }
      ⟨[], [], []⟩ =
      .ok ([("content-type", "application/json")], .obj [], "\x7b\x7d") := by
  refine ⟨?_, ?_, rfl⟩
  · intro p h' args
    cases p
    rfl
  · intro p h' args
    cases p
    rfl

/-- C6 counterexample: with the stored (lowercase) response header name
`content-type` and the skip entry `Content-Type`, the claim's
case-insensitive reading predicts an empty header section (just the
blank line), but the code keeps the header: the skip comparison is an
exact string match against the lowercased name. -/
theorem get_heardes_text_case_cex :
    get_heardes_text [("content-type", "text/plain")] ["Content-Type"] =
      "content-type: \"text/plain\"\n\n" ∧
    lowerStr "Content-Type" = lowerStr "content-type" ∧
    get_heardes_text [("content-type", "text/plain")] ["Content-Type"] ≠ "\n" := by
  refine ⟨rfl, rfl, by decide⟩

/-- C6 (amended): the normalized header section consists, in the
response's original header order, of exactly the headers whose stored
(lowercase) name is not literally a member of `skip_headers` — the
comparison is an exact, case-sensitive string match — each rendered as
`name: "value"` (debug-quoted value), and the section is terminated by
one blank line. -/
theorem foldl_append_init (l : List String) :
    ∀ a : String, l.foldl (fun r s => r ++ s) a = a ++ l.foldl (fun r s => r ++ s) "" := by
  induction l with
  | nil =>
      intro a
      simp [String.append_empty]
  | cons x xs ih =>
      intro a
      simp only [List.foldl_cons]
      rw [ih (a ++ x), ih ("" ++ x), String.empty_append, String.append_assoc]

theorem join_cons (s : String) (l : List String) : String.join (s :: l) = s ++ String.join l := by
  simp only [String.join, List.foldl_cons]
  rw [foldl_append_init l ("" ++ s), String.empty_append]

theorem get_heardes_text_spec (headers : List (String × String)) (skip : List String) :
    get_heardes_text headers skip =
      String.join ((headers.filter (fun p => !skip.contains p.1)).map
        (fun p => p.1 ++ ": " ++ debugQuote p.2 ++ "\n")) ++ "\n" := by
  unfold get_heardes_text
  congr 1
  induction headers with
  | nil => rfl
  | cons hd tl ih =>
      by_cases hm : hd.1 ∈ skip <;>
        simp [headerLines, List.filter_cons, hm, ih, join_cons]

/-- C4 counterexample: a query value that is not valid JSON does not
survive as a plain string — `from_str` fails outright. -/
theorem fromStr_string_value_fails :
    RequestProfile.fromStr "https://api.example.com/users?name=hello" =
      .error .valueParse := rfl

/-- C4 (amended): for a URL the model parses, `from_str` builds a GET
profile with the query stripped from the URL, empty headers, no body,
and `params` collecting the decomposed query pairs with each value
parsed as JSON (so `true`/`2` become typed scalars) — and it *fails*
when any query value is not valid JSON, rather than keeping it as a
plain string. -/
theorem fromStr_spec (s : String) (u : Url) (hu : urlParse s = some u) :
    (∀ kvs, paramsOfPairs (queryPairs (u.query.getD "")) = .ok kvs →
        RequestProfile.fromStr s =
          .ok { method := .GET, url := { base := u.base, query := none },
                params := some (.obj kvs), headers := [], body := none })
  ∧ (paramsOfPairs (queryPairs (u.query.getD "")) = .error .valueParse →
        RequestProfile.fromStr s = .error .valueParse) := by
  have hbase : RequestProfile.fromStr s =
      match paramsOfPairs (queryPairs (u.query.getD "")) with
      | .error e => .error e
      | .ok params => .ok (mkParsedProfile u params) := by
    unfold RequestProfile.fromStr
    rw [hu]
  constructor
  · intro kvs hkvs
    rw [hbase, hkvs]
    rfl
  · intro hfail
    rw [hbase, hfail]

/-- Witness for C4 at the spec's example URL: the query is stripped and
both values land as typed JSON scalars. -/
theorem fromStr_witness :
    RequestProfile.fromStr "https://api.example.com/users?active=true&page=2" =
      .ok { method := .GET,
            url := { base := "https://api.example.com/users", query := none },
            params := some (.obj [("active", .bool true), ("page", .num 2)]),
            headers := [], body := none } :=
  (fromStr_spec "https://api.example.com/users?active=true&page=2"
      { base := "https://api.example.com/users", query := some "active=true&page=2" }
      rfl).1 [("active", .bool true), ("page", .num 2)] rfl

/-- C5 counterexample: a response whose Content-Type value contains a
non-visible-ASCII byte (legal in a `HeaderValue`) does not have its
body emitted verbatim — `get_content_type` unwraps `to_str()` and
aborts, so normalization cannot return the body at all. -/
theorem get_body_text_panic_cex :
    get_body_text [("content-type", "café/type")] "body" [] = .error .toStrPanic ∧
    (Except.error BodyError.toStrPanic : Except BodyError String) ≠
      .ok ("body" ++ "\n") := by
  refine ⟨rfl, fun hcon => ?_⟩
  cases hcon

/-- C5 (amended): provided the response's Content-Type value is visible
ASCII, normalization of an `application/json` body parses the body text
as JSON and fails with the decode error exactly when the parse fails;
an object root has the `skip_body` keys removed at top level only and
is re-serialized pretty-printed, a non-object root is re-serialized
with all its elements intact (the serialized output stated for
float-free values, whose formatting the model captures exactly), and
any other content type emits the body text unchanged with `skip_body`
having no effect; a Content-Type value with a byte outside visible
ASCII instead makes normalization abort in `to_str().unwrap()`. -/
theorem get_body_text_spec (headers : HeaderMap) (text : String) (skip : List String) :
    (getContentType headers = .ok (some "application/json") →
        (parseJson text = none →
            get_body_text headers text skip = .error .bodyDecode)
      ∧ (∀ j, parseJson text = some j →
            ∃ t, get_body_text headers text skip = .ok t)
      ∧ (∀ m, parseJson text = some (.obj m) → (Json.obj m).noFloat = true →
            get_body_text headers text skip =
              .ok (toStringPretty (.obj (removeKeys skip m)) ++ "\n"))
      ∧ (∀ j, parseJson text = some j → j.isObject = false → j.noFloat = true →
            get_body_text headers text skip = .ok (toStringPretty j ++ "\n")))
  ∧ (∀ ct, getContentType headers = .ok ct → ct ≠ some "application/json" →
        get_body_text headers text skip = .ok (text ++ "\n"))
  ∧ (getContentType headers = .error () →
        get_body_text headers text skip = .error .toStrPanic) := by
  have hjson : getContentType headers = .ok (some "application/json") →
      get_body_text headers text skip =
        match filter_json text skip with
        | .error e => .error e
        | .ok t => .ok (t ++ "\n") := by
    intro hct
    unfold get_body_text
    rw [hct]
    rfl
  refine ⟨?_, ?_, ?_⟩
  · intro hct
    refine ⟨?_, ?_, ?_, ?_⟩
    · intro hp
      rw [hjson hct]
      unfold filter_json
      rw [hp]
    · intro j hp
      rw [hjson hct]
      unfold filter_json
      rw [hp]
      exact ⟨_, rfl⟩
    · intro m hp hnf
      rw [hjson hct]
      unfold filter_json
      rw [hp]
    · intro j hp hobj hnf
      rw [hjson hct]
      unfold filter_json
      rw [hp]
      rcases j with _ | b | n | fs | str | xs | kvs <;> try rfl
      simp [Json.isObject] at hobj
  · intro ct hct hne
    unfold get_body_text
    rw [hct]
    split
    · next heq => exact Except.noConfusion heq
    · next heq => exact absurd (Except.ok.inj heq) hne
    · rfl
  · intro hpanic
    unfold get_body_text
    rw [hpanic]

/-- Witness for C5 at the spec's example: body `{"a":1,"b":2,"c":3}`
with `skip_body = ["b"]` normalizes to `{"a":1,"c":3}` pretty-printed. -/
theorem get_body_text_witness :
    get_body_text [("content-type", "application/json")]
        "\x7b\"a\":1,\"b\":2,\"c\":3\x7d" ["b"] =
      .ok "\x7b\n  \"a\": 1,\n  \"c\": 3\n\x7d\n" := by
  have h := ((get_body_text_spec [("content-type", "application/json")]
      "\x7b\"a\":1,\"b\":2,\"c\":3\x7d" ["b"]).1 rfl).2.2.1
      [("a", .num 1), ("b", .num 2), ("c", .num 3)] rfl rfl
  exact h.trans rfl

theorem diffOps_self (xs : List String) :
    diffOps xs xs = xs.map (fun x => (Tag.equal, x)) := by
  induction xs with
  | nil => simp [diffOps]
  | cons x rest ih =>
      rw [diffOps]
      simp [ih]

theorem annotate_equal_tags (xs : List String) :
    ∀ i j c, c ∈ annotate i j (xs.map (fun x => (Tag.equal, x))) → c.tag = Tag.equal := by
  induction xs with
  | nil =>
      intro i j c hc
      cases hc
  | cons x rest ih =>
      intro i j c hc
      rcases List.mem_cons.mp hc with h | h
      · rw [h]
      · exact ih (i + 1) (j + 1) c h

theorem gatherRuns_map_false (l : List (Nat × Change)) :
    gatherRuns (l.map (fun p => (false, p.2))) = [] := by
  unfold gatherRuns
  induction l with
  | nil => rfl
  | cons hd tl ih => simpa [gatherRunsGo] using ih

/-- C7: diffing a text against itself produces zero hunks and an empty
rendered diff. -/
theorem diff_text_self_empty (text : String) :
    groupedOps 3 (annotate 0 0
        (diffOps (splitLinesKeepEnds text) (splitLinesKeepEnds text))) = [] ∧
    diff_text text text = "" := by
  set ls := splitLinesKeepEnds text with hls
  have htags : ∀ c ∈ annotate 0 0 (diffOps ls ls), c.tag = Tag.equal := by
    rw [diffOps_self]
    exact annotate_equal_tags ls 0 0
  have hempty : groupedOps 3 (annotate 0 0 (diffOps ls ls)) = [] := by
    unfold groupedOps
    have hidx : (annotate 0 0 (diffOps ls ls)).enum.filterMap
        (fun p => if p.2.tag ≠ Tag.equal then some p.1 else none) = [] := by
      refine List.filterMap_eq_nil_iff.mpr ?_
      intro p hp
      have := htags p.2 (List.snd_mem_of_mem_enum hp)
      simp [this]
    rw [hidx]
    simp only [List.any_nil]
    exact gatherRuns_map_false _
  exact ⟨hempty, by unfold diff_text; rw [← hls, hempty]; rfl⟩

theorem contains_map_replace (m : HeaderMap) (k v ct : String) (hk : k ≠ ct) :
    hmContains (m.map (fun p => if p.1 = k then (k, v) else p)) ct = hmContains m ct := by
  unfold hmContains
  rw [List.any_map]
  congr 1
  funext p
  by_cases hp : p.1 = k
  · simp [Function.comp, hp, hk]
  · simp [Function.comp, hp]

theorem hmContains_hmInsert_ne (m : HeaderMap) (k v ct : String) (hk : k ≠ ct)
    (hm : hmContains m ct = false) :
    hmContains (hmInsert k v m) ct = false := by
  unfold hmInsert
  split
  · rw [contains_map_replace m k v ct hk]
    exact hm
  · simp [hmContains, List.any_append] at hm ⊢
    exact ⟨by simpa [hmContains] using hm, fun he => absurd he hk⟩

theorem hmGet_hmInsert_absent (m : HeaderMap) (k v : String)
    (hm : hmContains m k = false) :
    hmGet (hmInsert k v m) k = some v := by
  unfold hmInsert
  rw [if_neg (by simp [hm])]
  unfold hmGet
  rw [List.find?_append]
  have hnone : m.find? (fun p => p.1 = k) = none := by
    refine List.find?_eq_none.mpr ?_
    intro x hx hx1
    have : hmContains m k = true := by
      unfold hmContains
      exact List.any_eq_true.mpr ⟨x, hx, hx1⟩
    rw [this] at hm
    cases hm
  rw [hnone]
  simp [List.find?_cons]

theorem except_ok_bind {ε α β : Type} (a : α) (f : α → Except ε β) :
    (Except.ok a >>= f) = f a := rfl

theorem except_error_bind {ε α β : Type} (e : ε) (f : α → Except ε β) :
    ((Except.error e : Except ε α) >>= f) = Except.error e := rfl

theorem req_headerFold_no_ct (l : List (String × String)) :
    ∀ (m : HeaderMap), (∀ kv ∈ l, parseHeaderName kv.1 ≠ some "content-type") →
    hmContains m "content-type" = false →
    ∀ h, l.foldlM Req.headerStep m = .ok h → hmContains h "content-type" = false := by
  induction l with
  | nil =>
      intro m _ hm h hh
      simp only [List.foldlM_nil] at hh
      cases hh
      exact hm
  | cons kv tl ih =>
      intro m hn hm h hh
      rw [List.foldlM_cons] at hh
      rcases hk : parseHeaderName kv.1 with _ | k
      · simp [Req.headerStep, hk, except_error_bind] at hh
      · rcases hv : parseHeaderValue kv.2 with _ | v
        · simp [Req.headerStep, hk, hv, except_error_bind] at hh
        · simp only [Req.headerStep, hk, hv, except_ok_bind] at hh
          have hkct : k ≠ "content-type" := by
            intro he
            exact (hn kv (List.mem_cons_self ..)) (by rw [hk, he])
          exact ih (hmInsert k v m) (fun x hx => hn x (List.mem_cons_of_mem _ hx))
            (hmContains_hmInsert_ne m k v _ hkct hm) h hh

theorem req_mergedHeaders_default (args : ExtraArgs) (h : HeaderMap)
    (hh : Req.mergedHeaders args = .ok h)
    (hn : ∀ kv ∈ args.headers, parseHeaderName kv.1 ≠ some "content-type") :
    getContentType h = .ok (some "application/json") := by
  unfold Req.mergedHeaders at hh
  rcases hf : args.headers.foldlM Req.headerStep ([] : HeaderMap) with e | h0
  · rw [hf] at hh
    cases hh
  · rw [hf] at hh
    have hc : hmContains h0 "content-type" = false :=
      req_headerFold_no_ct args.headers [] hn rfl h0 hf
    have hh' := Except.ok.inj hh
    rw [hc] at hh'
    simp only [Bool.false_eq_true, if_false] at hh'
    rw [← hh']
    unfold getContentType
    rw [hmGet_hmInsert_absent h0 _ _ hc]
    rfl

/-- C2 counterexample: a `%Content-Type` override whose value contains
a non-visible-ASCII byte is accepted by `HeaderValue::from_str`, but
`generate` then aborts in `get_content_type` (`to_str().unwrap()`)
instead of failing with the recoverable unsupported-content-type
error. -/
theorem generate_content_type_panic_cex :
    Req.generate sampleReq ⟨[("content-type", "café")], [], []⟩ = .error .toStrPanic ∧
    (Except.error GenError.toStrPanic : Except GenError (HeaderMap × Json × String)) ≠
      .error (.unsupported (some "café")) := by
  refine ⟨rfl, fun hcon => ?_⟩
  exact absurd (Except.error.inj hcon) (by decide)

/-- C2 (amended): provided the merged Content-Type value is visible
ASCII, body serialization is decided by the merged Content-Type —
`application/json` JSON-encodes the merged body and the two form
content types form-encode it (the encoded output stated for float-free
bodies, whose formatting the model captures exactly), while any other
merged content type fails with the unsupported-content-type error so
that no request is built; a merged Content-Type value with a byte
outside visible ASCII instead makes `generate` abort in
`to_str().unwrap()`; and when no header override carries a Content-Type
name the merged map defaults to `application/json`. -/
theorem generate_content_type_spec (p : RequestProfile) (args : ExtraArgs)
    (h : HeaderMap) (q b : Json)
    (hh : Req.mergedHeaders args = .ok h)
    (hq : mergeOverrides (p.params.getD (.obj [])) args.query = .ok q)
    (hb : mergeOverrides (p.body.getD (.obj [])) args.body = .ok b) :
    (getContentType h = .ok (some "application/json") → b.noFloat = true →
        Req.generate p args = .ok (h, q, jsonEncode b))
  ∧ (∀ fb, (getContentType h = .ok (some "application/x-www-form-urlencoded") ∨
        getContentType h = .ok (some "multipart/form-data")) → b.noFloat = true →
        formEncodeJson b = some fb →
        Req.generate p args = .ok (h, q, fb))
  ∧ (∀ ct, getContentType h = .ok ct →
        ct ≠ some "application/json" →
        ct ≠ some "application/x-www-form-urlencoded" →
        ct ≠ some "multipart/form-data" →
        Req.generate p args = .error (.unsupported ct))
  ∧ (getContentType h = .error () →
        Req.generate p args = .error .toStrPanic)
  ∧ ((∀ kv ∈ args.headers, parseHeaderName kv.1 ≠ some "content-type") →
        getContentType h = .ok (some "application/json")) := by
  have hbase : Req.generate p args = serializeBody h q b := by
    unfold Req.generate
    rw [hh, hq, hb]
  refine ⟨?_, ?_, ?_, ?_, ?_⟩
  · intro hct hnf
    rw [hbase]
    unfold serializeBody
    rw [hct]
    rfl
  · intro fb hor hnf hfb
    rw [hbase]
    unfold serializeBody
    rcases hor with hct | hct <;> rw [hct, hfb] <;> rfl
  · intro ct hct h1 h2 h3
    rw [hbase]
    unfold serializeBody
    rw [hct]
    split
    · next heq => exact Except.noConfusion heq
    · next heq => exact absurd (Except.ok.inj heq) h1
    · next heq => exact absurd (Except.ok.inj heq) h2
    · next heq => exact absurd (Except.ok.inj heq) h3
    · next heq => rw [Except.ok.inj heq]
  · intro hpanic
    rw [hbase]
    unfold serializeBody
    rw [hpanic]
  · exact fun hn => req_mergedHeaders_default args h hh hn

/-- Witness for C2: a form-content-type override makes the body
form-encoded. -/
theorem generate_content_type_witness :
    Req.generate
      { method := .POST, url := sampleUrl, params := none, headers := [],
        body := some (.obj [("n", .num 1)]) }
      ⟨[("content-type", "application/x-www-form-urlencoded")], [], []⟩ =
      .ok ([("content-type", "application/x-www-form-urlencoded")], .obj [], "n=1") :=
  (generate_content_type_spec
      { method := .POST, url := sampleUrl, params := none, headers := [],
        body := some (.obj [("n", .num 1)]) }
      ⟨[("content-type", "application/x-www-form-urlencoded")], [], []⟩
      [("content-type", "application/x-www-form-urlencoded")]
      (.obj []) (.obj [("n", .num 1)]) rfl rfl rfl).2.1 "n=1" (Or.inl rfl) rfl rfl

theorem isObject_obj (j : Json) (h : j.isObject = true) : ∃ m, j = .obj m := by
  cases j with
  | obj m => exact ⟨m, rfl⟩
  | null => simp [Json.isObject] at h
  | bool b => simp [Json.isObject] at h
  | num n => simp [Json.isObject] at h
  | fnum s => simp [Json.isObject] at h
  | str s => simp [Json.isObject] at h
  | arr xs => simp [Json.isObject] at h

theorem validate_shapes (p : RequestProfile) (hv : p.validate = .ok ()) :
    (p.params.getD (.obj [])).isObject = true ∧
    (p.body.getD (.obj [])).isObject = true := by
  rcases p with ⟨m, u, params, hs, body⟩
  rcases params with _ | v <;> rcases body with _ | w <;>
      simp only [RequestProfile.validate, bodyShapeCheck] at hv <;>
      simp only [Option.getD] <;>
      first
        | exact ⟨rfl, rfl⟩
        | (split_ifs at hv <;> simp_all [Json.isObject])

theorem mergeOverrides_error_kind (kvs : List (String × String)) :
    ∀ (init : Json) (e : GenError), mergeOverrides init kvs = .error e →
      e = .valueParse ∨ e = .indexPanic := by
  induction kvs with
  | nil =>
      intro init e he
      simp only [mergeOverrides, List.foldlM_nil] at he
      exact absurd (show (Except.ok init : Except GenError Json) = .error e from he) (by simp)
  | cons kv tl ih =>
      intro init e he
      unfold mergeOverrides at he ih
      rw [List.foldlM_cons] at he
      rcases hp : parseJson kv.2 with _ | jv
      · simp only [overrideStep, hp, except_error_bind] at he
        exact Or.inl (Except.error.inj he).symm
      · rcases hs : setKey init kv.1 jv with _ | q'
        · simp only [overrideStep, hp, hs, except_error_bind] at he
          exact Or.inr (Except.error.inj he).symm
        · simp only [overrideStep, hp, hs, except_ok_bind] at he
          exact ih q' e he

theorem mergeOverrides_obj (kvs : List (String × String)) :
    ∀ m : List (String × Json),
      mergeOverrides (.obj m) kvs ≠ .error .indexPanic ∧
      (∀ q, mergeOverrides (.obj m) kvs = .ok q → q.isObject = true) := by
  induction kvs with
  | nil =>
      intro m
      constructor
      · intro h
        simp only [mergeOverrides, List.foldlM_nil] at h
        exact absurd (show (Except.ok (Json.obj m) : Except GenError Json) =
          .error .indexPanic from h) (by simp)
      · intro q hq
        simp only [mergeOverrides, List.foldlM_nil] at hq
        have hq' : Json.obj m = q := Except.ok.inj hq
        rw [← hq']
        rfl
  | cons kv tl ih =>
      intro m
      have hstep : overrideStep (.obj m) kv =
          match parseJson kv.2 with
          | none => .error .valueParse
          | some jv => .ok (.obj (insertSorted kv.1 jv m)) := by
        unfold overrideStep
        rcases hp : parseJson kv.2 with _ | jv <;> rfl
      constructor
      · intro h
        unfold mergeOverrides at h
        rw [List.foldlM_cons, hstep] at h
        rcases hp : parseJson kv.2 with _ | jv <;> rw [hp] at h
        · have h' : (Except.error GenError.valueParse :
              Except GenError Json) = .error .indexPanic := h
          cases Except.error.inj h'
        · have h' : tl.foldlM overrideStep (.obj (insertSorted kv.1 jv m)) =
              .error .indexPanic := h
          exact (ih (insertSorted kv.1 jv m)).1 h'
      · intro q hq
        unfold mergeOverrides at hq
        rw [List.foldlM_cons, hstep] at hq
        rcases hp : parseJson kv.2 with _ | jv <;> rw [hp] at hq
        · exact absurd (show (Except.error GenError.valueParse :
            Except GenError Json) = .ok q from hq) (by simp)
        · exact (ih (insertSorted kv.1 jv m)).2 q hq

theorem config_headerFold_error (l : List (String × String)) :
    ∀ (m : HeaderMap) (e : GenError),
      l.foldlM ConfigMod.headerStep m = .error e → e = .headerName := by
  induction l with
  | nil =>
      intro m e he
      simp only [List.foldlM_nil] at he
      exact absurd (show (Except.ok m : Except GenError HeaderMap) = .error e from he) (by simp)
  | cons kv tl ih =>
      intro m e he
      rw [List.foldlM_cons] at he
      rcases hk : parseHeaderName kv.1 with _ | k
      · simp only [ConfigMod.headerStep, hk, except_error_bind] at he
        exact (Except.error.inj he).symm
      · rcases hv : parseHeaderName kv.2 with _ | v
        · simp only [ConfigMod.headerStep, hk, hv, except_error_bind] at he
          exact (Except.error.inj he).symm
        · simp only [ConfigMod.headerStep, hk, hv, except_ok_bind] at he
          exact ih (hmInsert k v m) e he

theorem config_mergedHeaders_error (args : ExtraArgs) (e : GenError)
    (he : ConfigMod.mergedHeaders args = .error e) : e = .headerName := by
  unfold ConfigMod.mergedHeaders at he
  rcases hf : args.headers.foldlM ConfigMod.headerStep ([] : HeaderMap) with e' | h <;>
    rw [hf] at he
  · have he' : (Except.error e' : Except GenError HeaderMap) = .error e := he
    rw [← Except.error.inj he']
    exact config_headerFold_error args.headers [] e' hf
  · exact absurd (show (Except.ok _ : Except GenError HeaderMap) = .error e from he) (by simp)

theorem serializeBody_no_panic (h : HeaderMap) (q b : Json) :
    serializeBody h q b ≠ .error .indexPanic ∧
    serializeBody h q b ≠ .error .asObjectPanic := by
  unfold serializeBody
  constructor <;> split <;> (try split) <;> simp

theorem serializeBody_ok_shape (h : HeaderMap) (q b : Json) (h' : HeaderMap)
    (q' : Json) (s : String) (hok : serializeBody h q b = .ok (h', q', s)) :
    h' = h ∧ q' = q := by
  unfold serializeBody at hok
  split at hok <;> (try split at hok) <;>
    first
      | (have ht := Except.ok.inj hok
         exact ⟨congrArg Prod.fst ht |>.symm, congrArg (Prod.fst ∘ Prod.snd) ht |>.symm⟩)
      | cases hok

theorem configMod_generate_not_asObjectPanic (p : RequestProfile) (args : ExtraArgs) :
    ConfigMod.generate p args ≠ .error .asObjectPanic := by
  intro hcon
  unfold ConfigMod.generate at hcon
  rcases hh : ConfigMod.mergedHeaders args with e | h <;> rw [hh] at hcon
  · have hcon' : (Except.error e : Except GenError (HeaderMap × Json × String)) =
        .error .asObjectPanic := hcon
    have he := config_mergedHeaders_error args e hh
    rw [he] at hcon'
    cases Except.error.inj hcon'
  · rcases hq : mergeOverrides (p.params.getD (.obj [])) args.query with e | q <;>
      rw [hq] at hcon
    · have hcon' : (Except.error e : Except GenError (HeaderMap × Json × String)) =
          .error .asObjectPanic := hcon
      have he := Except.error.inj hcon'
      rcases mergeOverrides_error_kind args.query _ e hq with h1 | h1 <;>
        (rw [h1] at he; cases he)
    · rcases hb : mergeOverrides (p.body.getD (.obj [])) args.body with e | b <;>
        rw [hb] at hcon
      · have hcon' : (Except.error e : Except GenError (HeaderMap × Json × String)) =
            .error .asObjectPanic := hcon
        have he := Except.error.inj hcon'
        rcases mergeOverrides_error_kind args.body _ e hb with h1 | h1 <;>
          (rw [h1] at he; cases he)
      · exact (serializeBody_no_panic h q b).2 hcon

theorem configMod_generate_params_obj (p : RequestProfile) (args : ExtraArgs)
    (hv : p.validate = .ok ()) (h : HeaderMap) (params : Json) (s : String)
    (hg : ConfigMod.generate p args = .ok (h, params, s)) :
    params.isObject = true := by
  obtain ⟨hpo, _⟩ := validate_shapes p hv
  obtain ⟨mp, hmp⟩ := isObject_obj _ hpo
  unfold ConfigMod.generate at hg
  rcases hh : ConfigMod.mergedHeaders args with e | h0 <;> rw [hh] at hg
  · exact absurd (show (Except.error e : Except GenError (HeaderMap × Json × String)) =
      .ok (h, params, s) from hg) (by simp)
  · rw [hmp] at hg
    rcases hq : mergeOverrides (.obj mp) args.query with e | q <;> rw [hq] at hg
    · exact absurd (show (Except.error e : Except GenError (HeaderMap × Json × String)) =
        .ok (h, params, s) from hg) (by simp)
    · rcases hb : mergeOverrides (p.body.getD (.obj [])) args.body with e | b <;>
        rw [hb] at hg
      · exact absurd (show (Except.error e : Except GenError (HeaderMap × Json × String)) =
          .ok (h, params, s) from hg) (by simp)
      · have hg' : serializeBody h0 q b = .ok (h, params, s) := hg
        have hshape := serializeBody_ok_shape h0 q b h params s hg'
        rw [hshape.2]
        exact (mergeOverrides_obj args.query mp).2 q hq

/-- C10: when `validate` accepts the template (`params`/`body` absent or
object-typed), the override merge never reaches the JSON string-key
index abort and `get_url` never reaches the `as_object().unwrap()`
abort: `generate` cannot return the index panic and `get_url` cannot
return the as-object panic. -/
theorem generate_get_url_no_panic (p : RequestProfile) (args : ExtraArgs)
    (hv : p.validate = .ok ()) :
    ConfigMod.generate p args ≠ .error .indexPanic ∧
    ConfigMod.get_url p args ≠ .error .asObjectPanic := by
  obtain ⟨hpo, hbo⟩ := validate_shapes p hv
  obtain ⟨mp, hmp⟩ := isObject_obj _ hpo
  obtain ⟨mb, hmb⟩ := isObject_obj _ hbo
  constructor
  · intro hcon
    unfold ConfigMod.generate at hcon
    rcases hh : ConfigMod.mergedHeaders args with e | h <;> rw [hh] at hcon
    · have hcon' : (Except.error e : Except GenError (HeaderMap × Json × String)) =
          .error .indexPanic := hcon
      have he := config_mergedHeaders_error args e hh
      rw [he] at hcon'
      cases Except.error.inj hcon'
    · rw [hmp] at hcon
      rcases hq : mergeOverrides (.obj mp) args.query with e | q <;> rw [hq] at hcon
      · have hcon' : (Except.error e : Except GenError (HeaderMap × Json × String)) =
            .error .indexPanic := hcon
        have he : e = .indexPanic := Except.error.inj hcon'
        rw [he] at hq
        exact (mergeOverrides_obj args.query mp).1 hq
      · rw [hmb] at hcon
        rcases hb : mergeOverrides (.obj mb) args.body with e | b <;> rw [hb] at hcon
        · have hcon' : (Except.error e : Except GenError (HeaderMap × Json × String)) =
              .error .indexPanic := hcon
          have he : e = .indexPanic := Except.error.inj hcon'
          rw [he] at hb
          exact (mergeOverrides_obj args.body mb).1 hb
        · exact (serializeBody_no_panic h q b).1 hcon
  · intro hcon
    unfold ConfigMod.get_url at hcon
    rcases hg : ConfigMod.generate p args with e | t <;> rw [hg] at hcon
    · have hcon' : (Except.error e : Except GenError String) = .error .asObjectPanic := hcon
      have he : e = .asObjectPanic := Except.error.inj hcon'
      rw [he] at hg
      exact configMod_generate_not_asObjectPanic p args hg
    · obtain ⟨h, params, s⟩ := t
      have hpobj : params.isObject = true :=
        configMod_generate_params_obj p args hv h params s hg
      obtain ⟨kvs, hk⟩ := isObject_obj _ hpobj
      rw [hk] at hcon
      have hcon' : (if kvs.isEmpty then (Except.ok p.url.toString : Except GenError String)
          else .ok (Url.toString { p.url with query := some (qsEncode kvs) })) =
          .error .asObjectPanic := hcon
      split at hcon' <;> cases hcon'

/-- Witness for C10: a validating template with object params/body and
overrides that hit both the query and the body merge. -/
theorem generate_get_url_no_panic_witness :
    ConfigMod.generate
      { method := .GET, url := sampleUrl, params := some (.obj [("a", .num 1)]),
        headers := [], body := some (.obj []) }
      ⟨[], [("b", "2")], [("x", "true")]⟩ ≠ .error .indexPanic ∧
    ConfigMod.get_url
      { method := .GET, url := sampleUrl, params := some (.obj [("a", .num 1)]),
        headers := [], body := some (.obj []) }
      ⟨[], [("b", "2")], [("x", "true")]⟩ ≠ .error .asObjectPanic :=
  generate_get_url_no_panic
    { method := .GET, url := sampleUrl, params := some (.obj [("a", .num 1)]),
      headers := [], body := some (.obj []) }
    ⟨[], [("b", "2")], [("x", "true")]⟩ rfl
